import Mathlib

/-!
Verification development for the FTDI MPSSE-based I2C bus master
(`ftdi/i2c.go`).  The Go code assembles, entirely in memory, a batch of
primitive MPSSE commands (pin sets and bit shifts), submits it in one
write, reads back one response byte per shift operation, validates the
acknowledgment bytes and copies the trailing data bytes into the
caller's read buffer.  This file embeds that batch-assembly and
response-decoding logic as executable Lean functions and proves the
specified properties about them.

Bytes are modelled as `Nat` values (< 256 in every reachable state);
16-bit wraparound and byte truncation are written out as explicit
`% 65536` / `% 256` where the Go code relies on fixed-width overflow.
The USB transport (`Write`/`Flush`/`ReadAll`) is external to the core:
it is abstracted as a reliable byte channel, the adapter's raw response
being passed in as an explicit argument.
-/

namespace FtdiI2C

/-- Modelled from the spec: the MPSSE opcode constants are declared in
the repository's `mpsse.go`, which is not part of the provided sources;
the numeric values are the ones recorded in the comments of `i2c.go`
(for example `gpioSetD` = 0x80, `dataIn` = 0x20,
`dataOut|dataOutFall|dataBit` = 0x13) and the FTDI MPSSE documents the
file cites. -/
def gpioSetD : Nat := 0x80

/-- MPSSE opcode: shift data out, eight bits, on falling clock edge. -/
def dataOut : Nat := 0x10

/-- MPSSE flag: data changes on the falling clock edge. -/
def dataOutFall : Nat := 0x01

/-- MPSSE opcode: shift data in. -/
def dataIn : Nat := 0x20

/-- MPSSE flag: bit mode (lengths count bits, not bytes). -/
def dataBit : Nat := 0x02

/-- MPSSE opcode 0x8A: disable clock divide-by-5 (60 MHz master clock). -/
def clock30MHz : Nat := 0x8A

/-- MPSSE opcode 0x8B: enable clock divide-by-5. -/
def clock6MHz : Nat := 0x8B

/-- MPSSE opcode 0x97: turn adaptive clocking off. -/
def clockNormal : Nat := 0x97

/-- MPSSE opcode 0x8C: enable 3-phase data clocking. -/
def clock3Phase : Nat := 0x8C

/-- MPSSE opcode 0x8D: disable 3-phase data clocking. -/
def clock2Phase : Nat := 0x8D

/-- MPSSE opcode 0x9E: drive-zero (tri-state) mode on selected lines. -/
def dataTristate : Nat := 0x9E

/-- MPSSE opcode 0x85: disable internal loopback. -/
def internalLoopbackDisable : Nat := 0x85

/-- MPSSE opcode 0x86: set the clock divisor (two value bytes follow,
low byte first). -/
def clockSetDivisor : Nat := 0x86

/-- MPSSE opcode 0x87: flush (send immediate). -/
def flush : Nat := 0x87

/-- Pin mask of the SCL line (D0), `i2cSCL` in the source. -/
def i2cSCL : Nat := 1

/-- Pin mask of the SDA output line (D1), `i2cSDAOut` in the source. -/
def i2cSDAOut : Nat := 2

/-- Pin mask of the SDA input line (D2), `i2cSDAIn` in the source. -/
def i2cSDAIn : Nat := 4

/-- One primitive MPSSE command as emitted by the batch builders of
`i2c.go`.  Each constructor stands for a fixed raw byte group; the
`serialize` function below gives the exact bytes. -/
inductive Cmd where
  /-- `gpioSetD, value, direction`: set the low GPIO port. -/
  | gpio (value dir : Nat)
  /-- `dataOut|dataOutFall, 0, 0, b`: shift the byte `b` out on the
  falling edge (length field 0 means one byte). -/
  | shiftOutByte (b : Nat)
  /-- `dataIn|dataBit, 0`: shift one bit in (the slave's ACK/NAK). -/
  | shiftInAckBit
  /-- `dataIn, 0, 0`: shift one byte in. -/
  | shiftInByte
  /-- `dataOut|dataOutFall|dataBit, 0, v`: shift the top bit of `v` out
  (the master-driven ACK/NAK after a read byte). -/
  | shiftOutAckBit (v : Nat)
deriving DecidableEq

/-- Raw bytes of one structured command, matching the byte groups the
Go builders append to `cmdfull`. -/
def Cmd.serialize : Cmd → List Nat
  | .gpio value dir => [gpioSetD, value, dir]
  | .shiftOutByte b => [dataOut ||| dataOutFall, 0, 0, b]
  | .shiftInAckBit => [dataIn ||| dataBit, 0]
  | .shiftInByte => [dataIn, 0, 0]
  | .shiftOutAckBit v => [dataOut ||| dataOutFall ||| dataBit, 0, v]

/-- Raw bytes of a whole batch. -/
def serializeBatch (l : List Cmd) : List Nat :=
  l.flatMap Cmd.serialize

/-- Embeds `setI2CLinesIdle` (i2c.go:209): first mutates the stored
direction mask (`direction&mask | i2cSCL | i2cSDAOut` with
`mask = 0xFF &^ (i2cSCL|i2cSDAOut|i2cSDAIn)`), then emits four
repetitions of "SCL high, SDA high" using the new mask.  Returns the
new direction together with the commands. -/
def setI2CLinesIdle (dir : Nat) : Nat × List Cmd :=
  let mask : Nat := 0xF8
  let dir2 := dir &&& mask ||| i2cSCL ||| i2cSDAOut
  (dir2,
   [Cmd.gpio (i2cSCL ||| i2cSDAOut) dir2,
    Cmd.gpio (i2cSCL ||| i2cSDAOut) dir2,
    Cmd.gpio (i2cSCL ||| i2cSDAOut) dir2,
    Cmd.gpio (i2cSCL ||| i2cSDAOut) dir2])

/-- Embeds `setI2CStart` (i2c.go:230): four repetitions of "SCL high,
SDA low" then four of "SCL low, SDA low", at the current direction. -/
def setI2CStart (dir : Nat) : List Cmd :=
  [Cmd.gpio i2cSCL dir,
   Cmd.gpio i2cSCL dir,
   Cmd.gpio i2cSCL dir,
   Cmd.gpio i2cSCL dir,
   Cmd.gpio 0x00 dir,
   Cmd.gpio 0x00 dir,
   Cmd.gpio 0x00 dir,
   Cmd.gpio 0x00 dir]

/-- Embeds `setI2CStop` (i2c.go:263): four repetitions each of
"SCL low, SDA low", "SCL high, SDA low", "SCL high, SDA high". -/
def setI2CStop (dir : Nat) : List Cmd :=
  [Cmd.gpio 0x00 dir,
   Cmd.gpio 0x00 dir,
   Cmd.gpio 0x00 dir,
   Cmd.gpio 0x00 dir,
   Cmd.gpio i2cSCL dir,
   Cmd.gpio i2cSCL dir,
   Cmd.gpio i2cSCL dir,
   Cmd.gpio i2cSCL dir,
   Cmd.gpio (i2cSCL ||| i2cSDAOut) dir,
   Cmd.gpio (i2cSCL ||| i2cSDAOut) dir,
   Cmd.gpio (i2cSCL ||| i2cSDAOut) dir,
   Cmd.gpio (i2cSCL ||| i2cSDAOut) dir]

/-- Embeds `setI2CWriteBytes` (i2c.go:294): for each byte, a
shift-out-8-bits carrying the byte, four "set back to idle" pin sets,
and a 1-bit shift-in reading the slave's ACK/NAK. -/
def setI2CWriteBytes (dir : Nat) (w : List Nat) : List Cmd :=
  w.flatMap fun c =>
    [Cmd.shiftOutByte c,
     Cmd.gpio i2cSDAOut dir,
     Cmd.gpio i2cSDAOut dir,
     Cmd.gpio i2cSDAOut dir,
     Cmd.gpio i2cSDAOut dir,
     Cmd.shiftInAckBit]

/-- Embeds `setI2CReadBytes` (i2c.go:328): for each of `setCnt` bytes,
a shift-in-8-bits, a master-driven 1-bit ACK/NAK (value byte 0x00 for
every index except the last, 0xFF for the last), and one "set back to
idle" pin set. -/
def setI2CReadBytes (dir : Nat) (setCnt : Nat) : List Cmd :=
  (List.range setCnt).flatMap fun iCnt =>
    [Cmd.shiftInByte,
     Cmd.shiftOutAckBit (if iCnt ≠ setCnt - 1 then 0x00 else 0xFF),
     Cmd.gpio i2cSDAOut dir]

/-- Embeds `address_byte` (i2c.go:405).  `uiAddr` is the value of the
Go `uint16` argument; the `% 65536` is the 16-bit wraparound of
`uiAddr << 1` and the `% 256` is the final `byte(...)` truncation. -/
def address_byte (uiAddr : Nat) (bRead : Bool) : Nat :=
  if bRead then (uiAddr * 2 % 65536 ||| 0x01) % 256
  else (uiAddr * 2 % 65536 &&& 0xFE) % 256

/-- Embeds the batch-assembly portion of `Tx` (i2c.go:75-117): start,
address byte in write direction plus payload with ACK checks, then —
only when both `w` and `r` are non-empty — stop, idle, restart, address
byte in read direction, and the read-byte sequence; a stop always
terminates the batch.  Returns the assembled batch and the running
response-byte counter `iReadCnt`.  `dir` is the stored pin-direction
mask at entry; `setI2CLinesIdle` updates it mid-batch exactly as the Go
code mutates `d.f.dbus.direction`. -/
def TxBatch (dir uiAddr : Nat) (w r : List Nat) : List Cmd × Nat :=
  let cmdFull := setI2CStart dir
  let byWrite := [address_byte uiAddr false]
  let byWrite := if w.length ≠ 0 then byWrite ++ w else byWrite
  let cmdFull := cmdFull ++ setI2CWriteBytes dir byWrite
  let iReadCnt := byWrite.length
  if r.length ≠ 0 ∧ w.length ≠ 0 then
    let cmdFull := cmdFull ++ setI2CStop dir
    let idle := setI2CLinesIdle dir
    let cmdFull := cmdFull ++ idle.2
    let cmdFull := cmdFull ++ setI2CStart idle.1
    let byRead := [address_byte uiAddr true]
    let cmdFull := cmdFull ++ setI2CWriteBytes idle.1 byRead
    let iReadCnt := iReadCnt + byRead.length
    let cmdFull := cmdFull ++ setI2CReadBytes idle.1 r.length
    let iReadCnt := iReadCnt + r.length
    (cmdFull ++ setI2CStop idle.1, iReadCnt)
  else
    (cmdFull ++ setI2CStop dir, iReadCnt)

/-- Embeds `transactionEnd` (i2c.go:365-403), with the transport
abstracted: `response` is the `readCnt`-byte buffer `ReadAll` filled.
Scans indices `0 .. readCnt - len r - 1` for a byte with bit 0 set and
fails with "got NAK" on the first one; otherwise copies
`response[(readCnt - len r) + i]` into `r[i]` for every `i < len r`.
Returns the outcome together with the final contents of the caller's
buffer `r` (unchanged on any failure).  When `len r > readCnt` the Go
copy loop indexes `readBuff` at a negative position and panics; that is
modelled as the distinct "panic" error outcome (the validation region
is empty in that case, so the branch order is faithful). -/
def transactionEnd (readCnt : Nat) (response r : List Nat) :
    Except String Unit × List Nat :=
  if (List.range (readCnt - r.length)).any
      (fun iCnt => response.getD iCnt 0 % 2 == 1) then
    (Except.error "got NAK", r)
  else if r.length ≤ readCnt then
    (Except.ok (),
     (List.range r.length).map fun iCnt =>
       response.getD (readCnt - r.length + iCnt) 0)
  else
    (Except.error "panic: index out of range", r)

/-- Embeds `Tx` (i2c.go:69-124) end to end: assemble the batch, then
decode the adapter's raw `response` with `transactionEnd`. -/
def Tx (dir uiAddr : Nat) (w r response : List Nat) :
    Except String Unit × List Nat :=
  transactionEnd (TxBatch dir uiAddr w r).2 response r

/-- Number of acknowledgment-bearing operations (1-bit shift-ins, one
per written byte) in a batch. -/
def countAcks (l : List Cmd) : Nat :=
  (l.filter fun c => match c with
    | Cmd.shiftInAckBit => true
    | _ => false).length

/-- Number of read-byte operations (8-bit shift-ins) in a batch. -/
def countReadOps (l : List Cmd) : Nat :=
  (l.filter fun c => match c with
    | Cmd.shiftInByte => true
    | _ => false).length

/-- Number of master-driven ACK/NAK bit emissions in a batch. -/
def countAckOuts (l : List Cmd) : Nat :=
  (l.filter fun c => match c with
    | Cmd.shiftOutAckBit _ => true
    | _ => false).length

/-- The bit an MPSSE 1-bit shift-out actually drives: bit 7 of the
value byte (MSB first; opcode 0x13 has no LSB-first flag). -/
def drivenBit (v : Nat) : Nat :=
  v / 128 % 2

/-- Frequency in the units of `physic.Frequency` (microhertz); the
`physic` package is an external dependency of the repository. -/
def hertz : Int := 1000000

/-- One kilohertz in `physic.Frequency` units. -/
def kiloHertz : Int := 1000 * hertz

/-- One megahertz in `physic.Frequency` units. -/
def megaHertz : Int := 1000 * kiloHertz

/-- Embeds `SetSpeed` (i2c.go:55-66): range-check the frequency, then
forward `f * 2 / 3` to `MPSSEClock`.  The returned `Int` is the value
forwarded to the adapter's clock-set primitive; on a range error
nothing reaches the adapter. -/
def SetSpeed (f : Int) : Except String Int :=
  if f > 10 * megaHertz then
    Except.error "d2xx: invalid speed; maximum supported clock is 10MHz"
  else if f < 100 * hertz then
    Except.error "d2xx: invalid speed; minimum supported clock is 100Hz"
  else
    Except.ok (f * 2 / 3)

/-- Embeds the divisor computation of `setupI2C` (i2c.go:150-151):
`clk := ((30 * physic.MegaHertz / f) - 1) * 2 / 3` at the fixed
400 kHz default. -/
def setupI2CClk : Int :=
  ((30 * megaHertz / (400 * kiloHertz)) - 1) * 2 / 3

/-- Embeds the first command block `setupI2C` writes (i2c.go:153-168,
pull-up disabled path): mode opcodes, then the set-divisor opcode
followed by the divisor's low byte and high byte. -/
def setupI2CCmd : List Nat :=
  [clock30MHz, clockNormal, clock3Phase, dataTristate, 0x07, 0x00,
   internalLoopbackDisable] ++
  [clockSetDivisor, setupI2CClk.toNat % 256, setupI2CClk.toNat / 256 % 256]

/-- Mutable bus-handle fields `stopI2C` touches: the pull-up setting
and the I2C-mode-configured flag. -/
structure BusState where
  pullUp : Bool
  usingI2C : Bool
deriving DecidableEq

/-- Embeds `stopI2C` (i2c.go:190-204): build the adapter-reset command
(`clock2Phase`, `clock30MHz` with zero divisor, and — when pull-up is
off — a tri-state reset), and clear the I2C-mode flag.  Returns the
bytes written and the new state; the transport write itself is applied
by the caller. -/
def stopI2C (s : BusState) : List Nat × BusState :=
  let buf := [clock2Phase, clock30MHz, 0, 0]
  let cmd := if !s.pullUp then buf ++ [dataTristate, 0, 0] else buf
  (cmd, BusState.mk s.pullUp false)

/-- Embeds `Close` (i2c.go:38-43): take the lock, run `stopI2C`, and
return its transport error.  `wf` is the external transport's write
primitive. -/
def Close (wf : List Nat → Except String Unit) (s : BusState) :
    Except String Unit × List Nat × BusState :=
  let p := stopI2C s
  (wf p.1, p.1, p.2)


/-! ## Helper lemmas -/

theorem countAcks_append (l₁ l₂ : List Cmd) :
    countAcks (l₁ ++ l₂) = countAcks l₁ + countAcks l₂ := by
  simp [countAcks, List.filter_append]

theorem countReadOps_append (l₁ l₂ : List Cmd) :
    countReadOps (l₁ ++ l₂) = countReadOps l₁ + countReadOps l₂ := by
  simp [countReadOps, List.filter_append]

theorem countAckOuts_append (l₁ l₂ : List Cmd) :
    countAckOuts (l₁ ++ l₂) = countAckOuts l₁ + countAckOuts l₂ := by
  simp [countAckOuts, List.filter_append]

theorem countAcks_writeBytes (dir : Nat) (w : List Nat) :
    countAcks (setI2CWriteBytes dir w) = w.length := by
  induction w with
  | nil => rfl
  | cons c rest ih =>
    simp [setI2CWriteBytes, List.flatMap_cons, countAcks, List.filter_append]
      at ih ⊢
    omega

theorem countReadOps_writeBytes (dir : Nat) (w : List Nat) :
    countReadOps (setI2CWriteBytes dir w) = 0 := by
  induction w with
  | nil => rfl
  | cons c rest ih =>
    simp [setI2CWriteBytes, List.flatMap_cons, countReadOps,
      List.filter_append] at ih ⊢
    exact ih

theorem countAckOuts_writeBytes (dir : Nat) (w : List Nat) :
    countAckOuts (setI2CWriteBytes dir w) = 0 := by
  induction w with
  | nil => rfl
  | cons c rest ih =>
    simp [setI2CWriteBytes, List.flatMap_cons, countAckOuts,
      List.filter_append] at ih ⊢
    exact ih

theorem countAcks_start (dir : Nat) : countAcks (setI2CStart dir) = 0 := rfl

theorem countAcks_stop (dir : Nat) : countAcks (setI2CStop dir) = 0 := rfl

theorem countReadOps_start (dir : Nat) :
    countReadOps (setI2CStart dir) = 0 := rfl

theorem countReadOps_stop (dir : Nat) :
    countReadOps (setI2CStop dir) = 0 := rfl

theorem countAckOuts_start (dir : Nat) :
    countAckOuts (setI2CStart dir) = 0 := rfl

theorem countAckOuts_stop (dir : Nat) :
    countAckOuts (setI2CStop dir) = 0 := rfl

/-! ## Clock translator (C4) -/

/-- Claim C4: for every frequency f with 100 Hz ≤ f ≤ 10 MHz, `SetSpeed f`
does not fail and forwards the scaled value `f * 2 / 3` to the
adapter's clock-set primitive; for every f above 10 MHz or below
100 Hz it fails with the corresponding out-of-range error and nothing
is forwarded to the adapter. -/
theorem setSpeed_range (f : Int) :
    (100 * hertz ≤ f → f ≤ 10 * megaHertz → SetSpeed f = .ok (f * 2 / 3)) ∧
    (10 * megaHertz < f → ∃ msg, SetSpeed f = .error msg) ∧
    (f < 100 * hertz → ∃ msg, SetSpeed f = .error msg) := by
  refine ⟨fun h1 h2 => ?_, fun h => ?_, fun h => ?_⟩
  · rw [SetSpeed, if_neg (by omega), if_neg (by omega)]
  · exact ⟨_, by rw [SetSpeed, if_pos (by omega)]⟩
  · rcases lt_or_le (10 * megaHertz) f with h2 | h2
    · exact ⟨_, by rw [SetSpeed, if_pos (by omega)]⟩
    · exact ⟨_, by rw [SetSpeed, if_neg (by omega), if_pos (by omega)]⟩

/-- Witness for C4 at the concrete in-range frequency 1 kHz
(10^9 microhertz). -/
theorem setSpeed_range_witness :
    100 * hertz ≤ (1000000000 : Int) ∧
      (1000000000 : Int) ≤ 10 * megaHertz ∧
      SetSpeed 1000000000 = .ok (1000000000 * 2 / 3) :=
  ⟨by decide, by decide,
   (setSpeed_range 1000000000).1 (by decide) (by decide)⟩

/-! ## Bus setup divisor (C8) -/

/-- Claim C8: the 400 kHz auto-configuration path computes the divisor by
the integer formula `((30 MHz / 400 kHz) - 1) * 2 / 3`, which
evaluates to 49, and the assembled setup command carries the
set-divisor opcode followed by the divisor's two little-endian bytes
(low byte 49, high byte 0). -/
theorem setup_divisor :
    setupI2CClk = ((30 * megaHertz / (400 * kiloHertz)) - 1) * 2 / 3 ∧
      setupI2CClk = 49 ∧
      setupI2CCmd.drop 7 = [clockSetDivisor, 49, 0] := by
  refine ⟨rfl, by decide, by decide⟩

/-! ## Close / stopI2C (C9) -/

/-- Claim C9: `Close` is idempotent.  For every bus state and transport,
both calls write the identical adapter-reset command sequence (whose
head restores default clocking: `clock2Phase` then `clock30MHz` with a
zero divisor), both leave the I2C-mode-configured flag cleared, and —
provided the transport accepts the reset write — the second call
returns no error. -/
theorem close_idempotent (wf : List Nat → Except String Unit)
    (s : BusState) (h : wf (stopI2C s).1 = .ok ()) :
    (Close wf ((Close wf s).2.2)).2.1 = (Close wf s).2.1 ∧
      (Close wf s).2.2.usingI2C = false ∧
      (Close wf ((Close wf s).2.2)).2.2.usingI2C = false ∧
      ((Close wf s).2.1).take 2 = [clock2Phase, clock30MHz] ∧
      (Close wf ((Close wf s).2.2)).1 = .ok () := by
  obtain ⟨p, u⟩ := s
  cases p <;>
    simp_all [Close, stopI2C]

/-- Witness for C9 with the always-accepting transport and a state
that has I2C mode configured. -/
theorem close_idempotent_witness :
    ((fun _ : List Nat => (Except.ok () : Except String Unit))
        (stopI2C (BusState.mk false true)).1 = .ok ()) ∧
      (Close (fun _ => .ok ())
          ((Close (fun _ => .ok ()) (BusState.mk false true)).2.2)).2.1 =
        (Close (fun _ => .ok ()) (BusState.mk false true)).2.1 ∧
      (Close (fun _ => .ok ()) (BusState.mk false true)).2.2.usingI2C =
        false :=
  ⟨rfl,
   (close_idempotent (fun _ => .ok ()) (BusState.mk false true) rfl).1,
   (close_idempotent (fun _ => .ok ()) (BusState.mk false true) rfl).2.1⟩

/-! ## Transaction executor (C2, C5) -/

/-- Claim C2: if any byte in the acknowledgment region of the raw response
(indices `0 .. readCnt - len r - 1`) has bit 0 set, `transactionEnd`
returns the "got NAK" error and the caller's buffer `r` is returned
unmodified — no byte of `r` is overwritten. -/
theorem transactionEnd_nak (readCnt : Nat) (response r : List Nat)
    (h : ∃ i, i < readCnt - r.length ∧ response.getD i 0 % 2 = 1) :
    transactionEnd readCnt response r = (Except.error "got NAK", r) := by
  obtain ⟨i, hi, hbit⟩ := h
  rw [transactionEnd, if_pos]
  rw [List.any_eq_true]
  refine ⟨i, List.mem_range.mpr hi, ?_⟩
  rw [beq_iff_eq]
  exact hbit

/-- Witness for C2: a two-byte response whose first acknowledgment
byte has bit 0 set fails the whole transaction. -/
theorem transactionEnd_nak_witness :
    (∃ i, i < 2 - ([] : List Nat).length ∧ [1, 0].getD i 0 % 2 = 1) ∧
      transactionEnd 2 [1, 0] [] = (Except.error "got NAK", []) :=
  ⟨⟨0, by decide, by decide⟩,
   transactionEnd_nak 2 [1, 0] [] ⟨0, by decide, by decide⟩⟩

/-- Claim C5: when no byte of the acknowledgment region has bit 0 set,
`transactionEnd` succeeds and the final buffer holds exactly the last
`len r` bytes of the raw response, in order:
`r[i] = response[readCnt - len r + i]` for every `i < len r`. -/
theorem transactionEnd_success (readCnt : Nat) (response r : List Nat)
    (hle : r.length ≤ readCnt)
    (hnak : ∀ i < readCnt - r.length, response.getD i 0 % 2 = 0) :
    (transactionEnd readCnt response r).1 = Except.ok () ∧
      (transactionEnd readCnt response r).2.length = r.length ∧
      ∀ i < r.length,
        (transactionEnd readCnt response r).2.getD i 0 =
          response.getD (readCnt - r.length + i) 0 := by
  have hcond : ¬((List.range (readCnt - r.length)).any
      (fun iCnt => response.getD iCnt 0 % 2 == 1) = true) := by
    rw [List.any_eq_true]
    rintro ⟨i, hmem, hbit⟩
    have hz := hnak i (List.mem_range.mp hmem)
    rw [beq_iff_eq, hz] at hbit
    exact absurd hbit (by decide)
  rw [transactionEnd, if_neg hcond, if_pos hle]
  refine ⟨rfl, by simp, fun i hi => ?_⟩
  rw [List.getD_eq_getElem _ _ (by simpa using hi), List.getElem_map,
    List.getElem_range]

/-- Witness for C5: a three-byte response with a clean acknowledgment
region, whose trailing byte lands in the one-byte read buffer. -/
theorem transactionEnd_success_witness :
    ([9] : List Nat).length ≤ 3 ∧
      (∀ i < 3 - ([9] : List Nat).length, [0, 2, 7].getD i 0 % 2 = 0) ∧
      (transactionEnd 3 [0, 2, 7] [9]).1 = Except.ok () ∧
      (transactionEnd 3 [0, 2, 7] [9]).2.getD 0 0 = [0, 2, 7].getD 2 0 :=
  ⟨by decide, by decide,
   (transactionEnd_success 3 [0, 2, 7] [9] (by decide) (by decide)).1,
   (transactionEnd_success 3 [0, 2, 7] [9] (by decide)
       (by decide)).2.2 0 (by decide)⟩

/-! ## Transaction builder, write-only (C6) -/

/-- Claim C6: for every non-empty write payload and empty read buffer, the
assembled batch contains exactly `1 + len w` acknowledgment-bearing
operations (one 1-bit shift-in per address/payload byte), zero
read-byte operations, zero master-driven ACK/NAK emissions, and the
expected response-byte count equals `1 + len w`. -/
theorem txBatch_write_only (dir uiAddr : Nat) (w : List Nat)
    (hw : w ≠ []) :
    countAcks (TxBatch dir uiAddr w []).1 = 1 + w.length ∧
      countReadOps (TxBatch dir uiAddr w []).1 = 0 ∧
      countAckOuts (TxBatch dir uiAddr w []).1 = 0 ∧
      (TxBatch dir uiAddr w []).2 = 1 + w.length := by
  have hw' : w.length ≠ 0 := by simpa [List.length_eq_zero] using hw
  rw [TxBatch]
  simp only [List.length_nil, ne_eq, not_true_eq_false, false_and,
    if_false, hw', not_false_eq_true, if_true, if_pos]
  refine ⟨?_, ?_, ?_, by simp [Nat.add_comm]⟩
  · simp [countAcks_append, countAcks_writeBytes, countAcks_start,
      countAcks_stop, Nat.add_comm]
  · simp [countReadOps_append, countReadOps_writeBytes,
      countReadOps_start, countReadOps_stop]
  · simp [countAckOuts_append, countAckOuts_writeBytes,
      countAckOuts_start, countAckOuts_stop]

/-- Witness for C6 at a concrete one-byte payload. -/
theorem txBatch_write_only_witness :
    ([5] : List Nat) ≠ [] ∧
      countAcks (TxBatch 3 80 [5] []).1 = 1 + ([5] : List Nat).length ∧
      countReadOps (TxBatch 3 80 [5] []).1 = 0 :=
  ⟨by decide, (txBatch_write_only 3 80 [5] (by decide)).1,
   (txBatch_write_only 3 80 [5] (by decide)).2.1⟩

/-! ## Read-byte sequence (C7) -/

/-- Claim C7: for every requested read count `n ≥ 1`, the read-byte builder
emits, for each of the first `n - 1` bytes, a shift-in-8-bits followed
by a master-driven acknowledgment whose value byte 0x00 drives bit 0
(ACK), and for the last byte a shift-in-8-bits followed by value byte
0xFF, which drives bit 1 (NAK). -/
theorem readBytes_ack_pattern (dir n : Nat) (h : 1 ≤ n) :
    setI2CReadBytes dir n =
      ((List.range (n - 1)).flatMap fun _ =>
        [Cmd.shiftInByte, Cmd.shiftOutAckBit 0x00,
         Cmd.gpio i2cSDAOut dir]) ++
      [Cmd.shiftInByte, Cmd.shiftOutAckBit 0xFF,
       Cmd.gpio i2cSDAOut dir] ∧
      drivenBit 0x00 = 0 ∧ drivenBit 0xFF = 1 := by
  obtain ⟨m, rfl⟩ : ∃ m, n = m + 1 := ⟨n - 1, by omega⟩
  refine ⟨?_, rfl, rfl⟩
  rw [setI2CReadBytes, List.range_succ, List.flatMap_append,
    Nat.add_sub_cancel]
  congr 1
  · simp only [List.flatMap_def]
    rw [List.map_congr_left]
    intro i hi
    rw [if_pos (Nat.ne_of_lt (List.mem_range.mp hi))]
  · simp

/-- Witness for C7 at a concrete two-byte read. -/
theorem readBytes_ack_pattern_witness :
    1 ≤ 2 ∧
      setI2CReadBytes 3 2 =
        ((List.range 1).flatMap fun _ =>
          [Cmd.shiftInByte, Cmd.shiftOutAckBit 0x00,
           Cmd.gpio i2cSDAOut 3]) ++
        [Cmd.shiftInByte, Cmd.shiftOutAckBit 0xFF,
         Cmd.gpio i2cSDAOut 3] :=
  ⟨by decide, (readBytes_ack_pattern 3 2 (by decide)).1⟩

/-! ## Transaction builder, combined write-then-read (C1) -/

/-- Claim C1: for every 7-bit address, non-empty write payload and non-empty
read buffer, the assembled batch is exactly: start, write-with-ack for
the write-direction address byte followed by the payload, stop, idle,
a second start, write-with-ack for the read-direction address byte,
the read-byte sequence for `len r` bytes, and a final stop; and the
expected response-byte count equals `(1 + len w) + 1 + len r`.  The
idle block updates the direction mask, so the second half of the batch
runs at the updated mask, exactly as the source mutates
`d.f.dbus.direction`. -/
theorem txBatch_combined (dir uiAddr : Nat) (w r : List Nat)
    (_haddr : uiAddr < 128) (hw : w ≠ []) (hr : r ≠ []) :
    TxBatch dir uiAddr w r =
      (setI2CStart dir ++
        setI2CWriteBytes dir (address_byte uiAddr false :: w) ++
        setI2CStop dir ++
        (setI2CLinesIdle dir).2 ++
        setI2CStart (setI2CLinesIdle dir).1 ++
        setI2CWriteBytes (setI2CLinesIdle dir).1
          [address_byte uiAddr true] ++
        setI2CReadBytes (setI2CLinesIdle dir).1 r.length ++
        setI2CStop (setI2CLinesIdle dir).1,
       (1 + w.length) + 1 + r.length) := by
  have hw' : w.length ≠ 0 := by simpa [List.length_eq_zero] using hw
  have hr' : r.length ≠ 0 := by simpa [List.length_eq_zero] using hr
  rw [TxBatch]
  simp only [hw', hr', ne_eq, not_false_eq_true, and_self, if_true,
    if_pos, List.singleton_append]
  rw [Prod.mk.injEq]
  constructor
  · simp [List.append_assoc]
  · simp only [List.length_cons, List.length_nil]
    omega

/-- Witness for C1 at a concrete address, payload and read length. -/
theorem txBatch_combined_witness :
    (80 : Nat) < 128 ∧ ([7] : List Nat) ≠ [] ∧ ([9] : List Nat) ≠ [] ∧
      TxBatch 3 80 [7] [9] =
        (setI2CStart 3 ++
          setI2CWriteBytes 3 (address_byte 80 false :: [7]) ++
          setI2CStop 3 ++
          (setI2CLinesIdle 3).2 ++
          setI2CStart (setI2CLinesIdle 3).1 ++
          setI2CWriteBytes (setI2CLinesIdle 3).1
            [address_byte 80 true] ++
          setI2CReadBytes (setI2CLinesIdle 3).1 1 ++
          setI2CStop (setI2CLinesIdle 3).1,
         (1 + 1) + 1 + 1) :=
  ⟨by decide, by decide, by decide,
   txBatch_combined 3 80 [7] [9] (by decide) (by decide) (by decide)⟩

/-! ## Address framing hyperproperty (C10) -/

theorem land_mod_256 (x y : Nat) : (x &&& y) % 256 = x % 256 &&& y := by
  apply Nat.eq_of_testBit_eq
  intro i
  rw [show (256 : Nat) = 2 ^ 8 from rfl, Nat.testBit_mod_two_pow,
    Nat.testBit_land, Nat.testBit_land, Nat.testBit_mod_two_pow,
    Bool.and_assoc]

theorem lor_one_mod_256 (x : Nat) : (x ||| 1) % 256 = x % 256 ||| 1 := by
  apply Nat.eq_of_testBit_eq
  intro i
  rw [show (256 : Nat) = 2 ^ 8 from rfl, Nat.testBit_mod_two_pow,
    Nat.testBit_lor, Nat.testBit_lor, Nat.testBit_mod_two_pow]
  rcases Nat.lt_or_ge i 8 with hi | hi
  · simp [hi]
  · have h1 : Nat.testBit 1 i = false :=
      Nat.testBit_lt_two_pow (by calc
        1 < 2 ^ 8 := by decide
        _ ≤ 2 ^ i := Nat.pow_le_pow_right (by decide) hi)
    simp [Nat.not_lt.mpr hi, h1]

theorem address_byte_low7 (a b : Nat) (h : a % 128 = b % 128)
    (bRead : Bool) : address_byte a bRead = address_byte b bRead := by
  have h2 : a * 2 % 256 = b * 2 % 256 := by
    have := (Nat.ModEq.mul_left' 2 (h : a ≡ b [MOD 128]) : _)
    simpa [Nat.mul_comm] using this
  have key : ∀ x : Nat, x * 2 % 65536 % 256 = x * 2 % 256 := fun x =>
    Nat.mod_mod_of_dvd _ (by decide)
  cases bRead with
  | true =>
    rw [address_byte, address_byte, if_pos rfl, if_pos rfl,
      lor_one_mod_256, lor_one_mod_256, key, key, h2]
  | false =>
    rw [address_byte, address_byte, if_neg (by decide),
      if_neg (by decide), land_mod_256, land_mod_256, key, key, h2]

/-- Claim C10: `Tx` never validates the upper bits of its 16-bit address
argument — the framed address byte keeps only the low bits of
`addr << 1` with bit 0 forced to the direction flag — so any two
addresses that agree on their low 7 bits (for example `a` and
`a + 128`) yield the identical assembled batch and the identical
response-byte count for every payload and read buffer, and in
particular identical observable behavior of the whole transaction. -/
theorem txBatch_addr_low7 (dir a b : Nat) (w r : List Nat)
    (h : a % 128 = b % 128) :
    TxBatch dir a w r = TxBatch dir b w r ∧
      TxBatch dir (a + 128) w r = TxBatch dir a w r := by
  have congrTx : ∀ x y : Nat, x % 128 = y % 128 →
      TxBatch dir x w r = TxBatch dir y w r := by
    intro x y hxy
    rw [TxBatch, TxBatch, address_byte_low7 x y hxy false,
      address_byte_low7 x y hxy true]
  exact ⟨congrTx a b h, congrTx (a + 128) a (by omega)⟩

/-- Witness for C10: addresses 80 and 208 = 80 + 128 produce the same
batch for a concrete combined transaction. -/
theorem txBatch_addr_low7_witness :
    (80 : Nat) % 128 = 208 % 128 ∧
      TxBatch 3 80 [7] [9] = TxBatch 3 208 [7] [9] :=
  ⟨by decide, (txBatch_addr_low7 3 80 208 [7] [9] (by decide)).1⟩

/-! ## Pure-read transaction (C3) -/

/-- Counterexample to claim C3 as stated: for `transact(addr = 0x50,
write = [], read = [0xAA])` with the single response byte 0x00 (its
acknowledgment bit 0 clear), the transaction returns no error but the
read buffer is NOT left unchanged — the raw response byte 0x00 is
copied over its original content 0xAA. -/
theorem tx_pure_read_counterexample :
    (0 : Nat) % 2 = 0 ∧
      Tx 3 80 [] [170] [0] = (Except.ok (), [0]) ∧
      ([0] : List Nat) ≠ [170] := by
  refine ⟨rfl, ?_, by decide⟩
  rfl

/-- Claim C3 as amended: for every address and single-byte read buffer, the
pure-read call assembles a batch containing exactly one
acknowledgment-bearing operation — belonging to the write-direction
address byte — and zero read-byte and zero master-driven ACK/NAK
operations, requests exactly 1 response byte, and returns no error
while copying the single raw response (acknowledgment) byte into the
read buffer, whatever its value (the acknowledgment region is empty,
so the byte is never validated). -/
theorem tx_pure_read (dir uiAddr r0 b : Nat) :
    countAcks (TxBatch dir uiAddr [] [r0]).1 = 1 ∧
      Cmd.shiftOutByte (address_byte uiAddr false) ∈
        (TxBatch dir uiAddr [] [r0]).1 ∧
      countReadOps (TxBatch dir uiAddr [] [r0]).1 = 0 ∧
      countAckOuts (TxBatch dir uiAddr [] [r0]).1 = 0 ∧
      (TxBatch dir uiAddr [] [r0]).2 = 1 ∧
      Tx dir uiAddr [] [r0] [b] = (Except.ok (), [b]) := by
  have hbatch : TxBatch dir uiAddr [] [r0] =
      (setI2CStart dir ++
        setI2CWriteBytes dir [address_byte uiAddr false] ++
        setI2CStop dir, 1) := by
    rw [TxBatch]
    simp
  refine ⟨?_, ?_, ?_, ?_, ?_, ?_⟩
  · rw [hbatch]
    simp [countAcks_append, countAcks_writeBytes, countAcks_start,
      countAcks_stop]
  · rw [hbatch]
    simp [setI2CWriteBytes]
  · rw [hbatch]
    simp [countReadOps_append, countReadOps_writeBytes,
      countReadOps_start, countReadOps_stop]
  · rw [hbatch]
    simp [countAckOuts_append, countAckOuts_writeBytes,
      countAckOuts_start, countAckOuts_stop]
  · rw [hbatch]
  · rw [Tx, hbatch]
    simp [transactionEnd, List.range_succ]

end FtdiI2C
